import Mathlib

/-!
Verification development for the cf-workers-proxy worker (src/_worker.js).

The worker's hostname substitution is performed by JavaScript
`String.replace` with the regex `(?<!\.)\b${host}\b` (global flag), where
`host` is interpolated without escaping, so every `.` inside the hostname
is the JS regex wildcard (any character except a line terminator).  The
embedding below models this matcher directly: a pattern is the hostname's
character list, where the character `.` matches any non-line-terminator
character and every other character matches literally (hostnames and the
literal path-prefix filters used by the worker contain no other JS regex
metacharacter).  Word boundaries (`\b`), the negative lookbehind
`(?<!\.)`, and the left-to-right global replacement discipline of
`String.replace` are modelled explicitly.
-/

/-- JS word character for `\b`: `[A-Za-z0-9_]`. -/
def isWordChar (c : Char) : Bool :=
  (0x61 ≤ c.toNat && c.toNat ≤ 0x7a) ||
  (0x41 ≤ c.toNat && c.toNat ≤ 0x5a) ||
  (0x30 ≤ c.toNat && c.toNat ≤ 0x39) ||
  c == '_'

/-- Word-character test on an optional character; out of range counts as non-word. -/
def isWordCharOpt : Option Char → Bool
  | none => false
  | some c => isWordChar c

/-- JS `\b`: a word boundary lies between two positions iff exactly one side is a word character. -/
def isBoundary (l r : Option Char) : Bool := isWordCharOpt l != isWordCharOpt r

/-- The JS regex `.` wildcard (no `s` flag): any character except a line terminator. -/
def dotMatches (c : Char) : Bool :=
  !(c == '\n' || c == '\r' || c.toNat == 0x2028 || c.toNat == 0x2029)

/-- One pattern character against one text character: `.` is the wildcard, everything else literal. -/
def patCharMatches (p c : Char) : Bool :=
  if p == '.' then dotMatches c else p == c

/-- Match a pattern against a prefix of the text, returning the matched text and the rest. -/
def matchChars : List Char → List Char → Option (List Char × List Char)
  | [], rest => some ([], rest)
  | _ :: _, [] => none
  | p :: ps, c :: cs =>
    if patCharMatches p c then
      match matchChars ps cs with
      | some (m, r) => some (c :: m, r)
      | none => none
    else none

/-- Last character of a matched segment, falling back to the previous character. -/
def lastOr (m : List Char) (prev : Option Char) : Option Char :=
  match m.getLast? with
  | some c => some c
  | none => prev

/-- Attempt the worker's pattern `((?<!\.)\b p1 \b)(p2)` at the current position.
`prev` is the character just before the position.  On success returns the text
matched by the second group, the remaining text, and the new previous character. -/
def tryMatch (p1 p2 : List Char) (prev : Option Char) (l : List Char) :
    Option (List Char × List Char × Option Char) :=
  if prev == some '.' then none
  else if !isBoundary prev l.head? then none
  else
    match matchChars p1 l with
    | none => none
    | some (m1, r1) =>
      let midPrev := lastOr m1 prev
      if !isBoundary midPrev r1.head? then none
      else
        match matchChars p2 r1 with
        | none => none
        | some (m2, r2) => some (m2, r2, lastOr m2 midPrev)

/-- Global left-to-right replacement, as JS `String.replace` with the `g` flag:
find the leftmost match, emit the replacement followed by the second captured
group, continue after the match; on failure advance one character.  Fuel is the
text length, which suffices because every step consumes at least one character
whenever the hostname pattern is nonempty (the worker rejects an empty
`PROXY_HOSTNAME` before ever substituting). -/
def replaceScan (p1 p2 toHost : List Char) : Nat → Option Char → List Char → List Char
  | 0, _, text => text
  | _ + 1, _, [] => []
  | fuel + 1, prev, c :: cs =>
    match tryMatch p1 p2 prev (c :: cs) with
    | some (m2, rest, newPrev) => toHost ++ m2 ++ replaceScan p1 p2 toHost fuel newPrev rest
    | none => c :: replaceScan p1 p2 toHost fuel (some c) cs

/-- Whether the worker's pattern matches anywhere in the text (tested at every position). -/
def scanHasMatch (p1 p2 : List Char) : Option Char → List Char → Bool
  | _, [] => false
  | prev, c :: cs => (tryMatch p1 p2 prev (c :: cs)).isSome || scanHasMatch p1 p2 (some c) cs

/-- The worker's unconstrained substitution:
`text.replace(new RegExp("(?<!\\.)\\b" + host + "\\b", "g"), to)`. -/
def replaceHost (host toHost text : String) : String :=
  String.mk (replaceScan host.data [] toHost.data text.data.length none text.data)

/-- The worker's path-constrained substitution (lines 134-137):
`text.replace(new RegExp("((?<!\\.)\\b" + host + "\\b)(" + pathPat + ")", "g"), to + "$2")`. -/
def replaceHostWithPath (host pathPat toHost text : String) : String :=
  String.mk (replaceScan host.data pathPat.data toHost.data text.data.length none text.data)

/-- The worker's `pathnameRegex.replace(/^\^/, "")`: strip one leading caret anchor. -/
def stripCaret (r : String) : String :=
  match r.data with
  | '^' :: rest => String.mk rest
  | _ => r

/-- The other hostname of the GitHub pair (line 147 of the worker). -/
def otherGitHubHost (proxyHostname : String) : String :=
  if proxyHostname == "api.github.com" then "github.com" else "api.github.com"

/-- The worker's `replaceResponseText` (lines 122-155): first substitute the resolved
proxy hostname (path-constrained when a truthy `pathnameRegex` is configured, the
leading `^` anchor stripped before the pattern is reused mid-string), then, when the
configured base hostname is `github.com`, additionally substitute the other hostname
of the GitHub pair with the plain unconstrained pattern. -/
def replaceResponseText (text proxyHostname : String) (pathnameRegex : Option String)
    (originHostname : String) (baseHostname : Option String) : String :=
  let text1 :=
    match pathnameRegex with
    | some r =>
      if r == "" then replaceHost proxyHostname originHostname text
      else replaceHostWithPath proxyHostname (stripCaret r) originHostname text
    | none => replaceHost proxyHostname originHostname text
  if baseHostname == some "github.com" then
    replaceHost (otherGitHubHost proxyHostname) originHostname text1
  else text1

/-- JS `a.startsWith(b)` on strings, as used by `isGitHubAPIPath`. -/
def startsWithL : List Char → List Char → Bool
  | [], _ => true
  | _ :: _, [] => false
  | p :: ps, c :: cs => p == c && startsWithL ps cs

/-- String-level wrapper for JS `String.startsWith`. -/
def jsStartsWith (s pre : String) : Bool := startsWithL pre.data s.data

/-- The enumerated GitHub API path literals (lines 16-36 of the worker). -/
def apiPaths : List String :=
  ["/repos/", "/user", "/users/", "/orgs/", "/organizations/", "/gists/",
   "/search/", "/rate_limit", "/emojis", "/events", "/feeds", "/notifications",
   "/meta", "/octocat", "/zen", "/marketplace_listing/", "/installation/",
   "/app/", "/applications/"]

/-- The worker's `isGitHubAPIPath` (lines 14-39): does the raw path start with one
of the enumerated API path literals? -/
def isGitHubAPIPath (pathname : String) : Bool :=
  apiPaths.any (fun path => jsStartsWith pathname path)

/-- The worker's `getGitHubProxyHost` (lines 47-53). -/
def getGitHubProxyHost (baseHostname pathname : String) : String :=
  if baseHostname == "github.com" && isGitHubAPIPath pathname then "api.github.com"
  else baseHostname

/-- JS `a.includes(b)`: literal substring containment, step by step. -/
def containsL : List Char → List Char → Bool
  | [], sub => sub.isEmpty
  | c :: cs, sub => startsWithL sub (c :: cs) || containsL cs sub

/-- String-level wrapper for JS `String.includes`. -/
def jsIncludes (s sub : String) : Bool := containsL s.data sub.data

/-- The content-type gate and body selection of the worker's fetch handler
(lines 256-269): a missing `content-type` header is coerced to `""` (the JS
`|| ""`), and the body is buffered and rewritten exactly when the content type
contains `text/` or `application/json`; otherwise the raw body is passed
through unmodified. -/
def pickBody (contentType : Option String) (raw host : String)
    (pathnameRegex : Option String) (origin : String) (base : Option String) : String :=
  let ct := contentType.getD ""
  if jsIncludes ct "text/" || jsIncludes ct "application/json" then
    replaceResponseText raw host pathnameRegex origin base
  else raw

/-- The worker's environment bindings used by the access gate (lines 186-198).
`PROXY_HOSTNAME` is the raw environment string (absent or empty is falsy).  Each
configured regex filter is modelled by the test function of its compiled regex,
i.e. `some f` stands for a truthy `X_REGEX` environment value whose
`new RegExp(X_REGEX).test` is `f`; `none` stands for an unset (or empty, hence
falsy) variable, whose clause short-circuits to false in the source. -/
structure Env where
  PROXY_HOSTNAME : Option String
  PATHNAME_REGEX : Option (String → Bool)
  UA_WHITELIST_REGEX : Option (String → Bool)
  UA_BLACKLIST_REGEX : Option (String → Bool)
  IP_WHITELIST_REGEX : Option (String → Bool)
  IP_BLACKLIST_REGEX : Option (String → Bool)
  REGION_WHITELIST_REGEX : Option (String → Bool)
  REGION_BLACKLIST_REGEX : Option (String → Bool)

/-- The request data the access gate reads: the URL path and the three headers,
each `none` when the header is absent (JS `headers.get` returns `null`). -/
structure RequestInfo where
  pathname : String
  userAgent : Option String
  cfConnectingIp : Option String
  cfIpcountry : Option String

/-- JS truthiness of an optional environment string: `undefined` and `""` are falsy. -/
def truthyStr : Option String → Bool
  | none => false
  | some s => !(s == "")

/-- JS coercion applied by `RegExp.test` to a missing header: `null` becomes the
string `"null"` (lines 212-227 pass `headers.get(...)` straight to `test`). -/
def jsHeaderStr : Option String → String
  | none => "null"
  | some s => s

/-- A whitelist clause `(X_REGEX && !new RegExp(X_REGEX).test(v))`. -/
def testWhitelist (o : Option (String → Bool)) (v : String) : Bool :=
  match o with
  | none => false
  | some f => !f v

/-- A blacklist clause `(X_REGEX && new RegExp(X_REGEX).test(v))`. -/
def testBlacklist (o : Option (String → Bool)) (v : String) : Bool :=
  match o with
  | none => false
  | some f => f v

/-- The user-agent whitelist clause (lines 204-207): when configured, the source
evaluates `request.headers.get("user-agent").toLowerCase()`, which throws a
`TypeError` when the header is absent (`null`); the throw is modelled by
`Except.error`. -/
def uaWhitelistClause (o : Option (String → Bool)) (ua : Option String) :
    Except String Bool :=
  match o with
  | none => Except.ok false
  | some f =>
    match ua with
    | none => Except.error "TypeError"
    | some s => Except.ok (!f s.toLower)

/-- The user-agent blacklist clause (lines 208-211), with the same `TypeError`
behaviour on a missing header. -/
def uaBlacklistClause (o : Option (String → Bool)) (ua : Option String) :
    Except String Bool :=
  match o with
  | none => Except.ok false
  | some f =>
    match ua with
    | none => Except.error "TypeError"
    | some s => Except.ok (f s.toLower)

/-- Short-circuiting JS `||` over clauses that may throw: a thrown error
propagates, a true clause stops evaluation, a false clause moves on. -/
def orElseReject (a b : Except String Bool) : Except String Bool :=
  match a with
  | Except.error e => Except.error e
  | Except.ok true => Except.ok true
  | Except.ok false => b

/-- The access-gate condition of the worker's fetch handler (lines 201-228), in
source order with JS short-circuit evaluation: `Except.ok true` means the request
is rejected (nginx page or 302), `Except.ok false` means it is proxied, and
`Except.error` models a thrown `TypeError` (caught at line 274 and turned into a
500 response). -/
def shouldReject (env : Env) (req : RequestInfo) : Except String Bool :=
  orElseReject (Except.ok (!truthyStr env.PROXY_HOSTNAME))
  (orElseReject (Except.ok (testWhitelist env.PATHNAME_REGEX req.pathname))
  (orElseReject (uaWhitelistClause env.UA_WHITELIST_REGEX req.userAgent)
  (orElseReject (uaBlacklistClause env.UA_BLACKLIST_REGEX req.userAgent)
  (orElseReject (Except.ok (testWhitelist env.IP_WHITELIST_REGEX (jsHeaderStr req.cfConnectingIp)))
  (orElseReject (Except.ok (testBlacklist env.IP_BLACKLIST_REGEX (jsHeaderStr req.cfConnectingIp)))
  (orElseReject (Except.ok (testWhitelist env.REGION_WHITELIST_REGEX (jsHeaderStr req.cfIpcountry)))
  (Except.ok (testBlacklist env.REGION_BLACKLIST_REGEX (jsHeaderStr req.cfIpcountry)))))))))

/-- Outcome of the gate as observed by the client. -/
inductive FetchOutcome where
  | proxied
  | rejectedPage
  | serverError
deriving DecidableEq

/-- What the fetch handler does with the gate: a thrown error is caught by the
top-level handler (lines 274-277) and becomes a 500, a true condition returns
the fallback page or redirect, a false condition proceeds to proxy. -/
def gateOutcome (env : Env) (req : RequestInfo) : FetchOutcome :=
  match shouldReject env req with
  | Except.error _ => FetchOutcome.serverError
  | Except.ok true => FetchOutcome.rejectedPage
  | Except.ok false => FetchOutcome.proxied

/-- Specification-level substring containment: `sub` occurs contiguously in `s`. -/
def ContainsSub (s sub : String) : Prop :=
  ∃ pre post : String, s = pre ++ sub ++ post

theorem string_data_append (a b : String) : (a ++ b).data = a.data ++ b.data := by
  cases a; cases b; rfl

theorem string_ext (a b : String) (h : a.data = b.data) : a = b := by
  cases a; cases b; exact congrArg String.mk h

theorem startsWithL_iff (sub : List Char) : ∀ l : List Char,
    startsWithL sub l = true ↔ ∃ q, l = sub ++ q := by
  induction sub with
  | nil => intro l; simp [startsWithL]
  | cons p ps ih =>
    intro l
    cases l with
    | nil => simp [startsWithL]
    | cons c cs =>
      simp only [startsWithL, Bool.and_eq_true, beq_iff_eq, ih, List.cons_append,
        List.cons.injEq]
      constructor
      · rintro ⟨h1, q, h2⟩; exact ⟨q, h1.symm, h2⟩
      · rintro ⟨q, h1, h2⟩; exact ⟨h1.symm, q, h2⟩

theorem containsL_iff : ∀ l sub : List Char,
    containsL l sub = true ↔ ∃ p q, l = p ++ sub ++ q := by
  intro l
  induction l with
  | nil =>
    intro sub
    cases sub <;> simp [containsL]
  | cons c cs ih =>
    intro sub
    simp only [containsL, Bool.or_eq_true, startsWithL_iff, ih]
    constructor
    · rintro (⟨q, hq⟩ | ⟨p, q, hpq⟩)
      · exact ⟨[], q, by simpa using hq⟩
      · exact ⟨c :: p, q, by simp [hpq]⟩
    · rintro ⟨p, q, hpq⟩
      cases p with
      | nil => exact Or.inl ⟨q, by simpa using hpq⟩
      | cons x xs =>
        simp only [List.cons_append, List.cons.injEq] at hpq
        exact Or.inr ⟨xs, q, hpq.2⟩

theorem jsIncludes_iff (s sub : String) : jsIncludes s sub = true ↔ ContainsSub s sub := by
  rw [jsIncludes, containsL_iff]
  constructor
  · rintro ⟨p, q, h⟩
    refine ⟨String.mk p, String.mk q, string_ext _ _ ?_⟩
    rw [string_data_append, string_data_append]
    exact h
  · rintro ⟨pre, post, h⟩
    exact ⟨pre.data, post.data, by rw [h, string_data_append, string_data_append]⟩

theorem replaceScan_of_noMatch (p1 p2 toHost : List Char) :
    ∀ (fuel : Nat) (prev : Option Char) (text : List Char),
      scanHasMatch p1 p2 prev text = false →
      replaceScan p1 p2 toHost fuel prev text = text := by
  intro fuel
  induction fuel with
  | zero => intro prev text _; rfl
  | succ n ih =>
    intro prev text h
    cases text with
    | nil => rfl
    | cons c cs =>
      rw [scanHasMatch, Bool.or_eq_false_iff] at h
      have ht : tryMatch p1 p2 prev (c :: cs) = none := by
        cases hcase : tryMatch p1 p2 prev (c :: cs) with
        | none => rfl
        | some v => rw [hcase] at h; simp at h
      rw [replaceScan, ht, ih (some c) cs h.2]

theorem orElseReject_ok_false_iff (a b : Except String Bool) :
    orElseReject a b = Except.ok false ↔ (a = Except.ok false ∧ b = Except.ok false) := by
  cases a with
  | error e => simp [orElseReject]
  | ok v => cases v <;> simp [orElseReject]

theorem ok_not_eq_ok_false (b : Bool) :
    (Except.ok (!b) : Except String Bool) = Except.ok false ↔ b = true := by
  cases b <;> simp

theorem ok_eq_ok_false (b : Bool) :
    (Except.ok b : Except String Bool) = Except.ok false ↔ b = false := by
  cases b <;> simp

theorem testWhitelist_eq_false_iff (o : Option (String → Bool)) (v : String) :
    testWhitelist o v = false ↔ ∀ f, o = some f → f v = true := by
  cases o <;> simp [testWhitelist]

theorem testBlacklist_eq_false_iff (o : Option (String → Bool)) (v : String) :
    testBlacklist o v = false ↔ ∀ f, o = some f → f v = false := by
  cases o <;> simp [testBlacklist]

theorem uaWhitelistClause_some (o : Option (String → Bool)) (s : String) :
    uaWhitelistClause o (some s) = Except.ok false ↔
      ∀ f, o = some f → f s.toLower = true := by
  cases o <;> simp [uaWhitelistClause]

theorem uaBlacklistClause_some (o : Option (String → Bool)) (s : String) :
    uaBlacklistClause o (some s) = Except.ok false ↔
      ∀ f, o = some f → f s.toLower = false := by
  cases o <;> simp [uaBlacklistClause]

theorem shouldReject_pass_iff (env : Env) (req : RequestInfo) (ua ip cc : String)
    (hua : req.userAgent = some ua) (hip : req.cfConnectingIp = some ip)
    (hcc : req.cfIpcountry = some cc) :
    shouldReject env req = Except.ok false ↔
      (truthyStr env.PROXY_HOSTNAME = true ∧
       (∀ f, env.PATHNAME_REGEX = some f → f req.pathname = true) ∧
       (∀ f, env.UA_WHITELIST_REGEX = some f → f ua.toLower = true) ∧
       (∀ f, env.UA_BLACKLIST_REGEX = some f → f ua.toLower = false) ∧
       (∀ f, env.IP_WHITELIST_REGEX = some f → f ip = true) ∧
       (∀ f, env.IP_BLACKLIST_REGEX = some f → f ip = false) ∧
       (∀ f, env.REGION_WHITELIST_REGEX = some f → f cc = true) ∧
       (∀ f, env.REGION_BLACKLIST_REGEX = some f → f cc = false)) := by
  rw [shouldReject, hua, hip, hcc]
  simp only [orElseReject_ok_false_iff, ok_not_eq_ok_false, ok_eq_ok_false,
    testWhitelist_eq_false_iff, testBlacklist_eq_false_iff, uaWhitelistClause_some,
    uaBlacklistClause_some, jsHeaderStr, and_assoc, Bool.not_eq_false']

/-- C1: the claim states that the substitution primitive rewrites exactly the
whole-word, non-dot-preceded occurrences of the literal hostname `from` and
nothing else.  The dot-guard does hold (the `github.com` suffix of
`api.github.com` and the longer label `notgithub.com` are untouched), but the
hostname is interpolated into the regex unescaped, so its `.` matches any
character: the code also rewrites `githubxcom`, which contains no occurrence of
the literal hostname `github.com` at all.  The third conjunct evaluates the
code at this failing input. -/
theorem c1_literal_only_substitution_fails :
    replaceHost "github.com" "x.example" "visit api.github.com and github.com" =
        "visit api.github.com and x.example" ∧
    replaceHost "github.com" "x.example" "notgithub.com" = "notgithub.com" ∧
    replaceHost "github.com" "x.example" "githubxcom" = "x.example" :=
  ⟨by decide, by decide, by decide⟩

/-- C6: the claim states that for every string containing only whole-word,
non-dot-preceded occurrences of hostname A and no occurrences of hostname B,
rewriting A to B and then B to A restores the string.  The string
`"github.com and xyexample"` satisfies both side conditions (its only literal
occurrence of `github.com` is a whole word at the start, and `x.example` does
not occur in it), yet the round trip produces `"github.com and github.com"`:
the unescaped dot in the inbound pattern `x.example` also matches
`xyexample`. -/
theorem c6_round_trip_fails :
    replaceHost "x.example" "github.com"
        (replaceHost "github.com" "x.example" "github.com and xyexample") =
      "github.com and github.com" ∧
    "github.com and github.com" ≠ "github.com and xyexample" :=
  ⟨by decide, by decide⟩

/-- C2: for any configuration and any request that carries a user-agent, a
client IP and a region header, the gate proxies the request iff
`PROXY_HOSTNAME` is truthy and every configured filter is satisfied: the path
matches the pathname filter, the lower-cased user-agent matches the UA
whitelist and not the UA blacklist, the client IP matches the IP whitelist and
not the IP blacklist, and the region matches the region whitelist and not the
region blacklist; unset filters impose no constraint.  The second conjunct is
the monotonicity half: a request that passes with the deny filters configured
also passes once they are removed, i.e. configuring an additional deny filter
can only turn a pass into a reject, never the reverse. -/
theorem c2_access_control_and_semantics (env : Env) (req : RequestInfo)
    (ua ip cc : String) (hua : req.userAgent = some ua)
    (hip : req.cfConnectingIp = some ip) (hcc : req.cfIpcountry = some cc) :
    (shouldReject env req = Except.ok false ↔
      (truthyStr env.PROXY_HOSTNAME = true ∧
       (∀ f, env.PATHNAME_REGEX = some f → f req.pathname = true) ∧
       (∀ f, env.UA_WHITELIST_REGEX = some f → f ua.toLower = true) ∧
       (∀ f, env.UA_BLACKLIST_REGEX = some f → f ua.toLower = false) ∧
       (∀ f, env.IP_WHITELIST_REGEX = some f → f ip = true) ∧
       (∀ f, env.IP_BLACKLIST_REGEX = some f → f ip = false) ∧
       (∀ f, env.REGION_WHITELIST_REGEX = some f → f cc = true) ∧
       (∀ f, env.REGION_BLACKLIST_REGEX = some f → f cc = false))) ∧
    (shouldReject env req = Except.ok false →
      shouldReject
        { env with UA_BLACKLIST_REGEX := none, IP_BLACKLIST_REGEX := none,
                   REGION_BLACKLIST_REGEX := none } req = Except.ok false) := by
  refine ⟨shouldReject_pass_iff env req ua ip cc hua hip hcc, ?_⟩
  intro hpass
  obtain ⟨h1, h2, h3, _, h5, _, h7, _⟩ :=
    (shouldReject_pass_iff env req ua ip cc hua hip hcc).mp hpass
  exact (shouldReject_pass_iff _ req ua ip cc hua hip hcc).mpr
    ⟨h1, h2, h3, fun f hf => by simp at hf, h5, fun f hf => by simp at hf,
     h7, fun f hf => by simp at hf⟩

/-- Witness for C2: a concrete configuration with only `PROXY_HOSTNAME` set and
a concrete request with all three headers present is proxied. -/
theorem c2_access_control_and_semantics_witness :
    shouldReject
      { PROXY_HOSTNAME := some "example.com", PATHNAME_REGEX := none,
        UA_WHITELIST_REGEX := none, UA_BLACKLIST_REGEX := none,
        IP_WHITELIST_REGEX := none, IP_BLACKLIST_REGEX := none,
        REGION_WHITELIST_REGEX := none, REGION_BLACKLIST_REGEX := none }
      { pathname := "/", userAgent := some "curl/8.0", cfConnectingIp := some "1.2.3.4",
        cfIpcountry := some "US" } = Except.ok false :=
  (c2_access_control_and_semantics _ _ "curl/8.0" "1.2.3.4" "US" rfl rfl rfl).1.mpr
    ⟨by decide, fun f hf => by simp at hf, fun f hf => by simp at hf, fun f hf => by simp at hf,
     fun f hf => by simp at hf, fun f hf => by simp at hf, fun f hf => by simp at hf,
     fun f hf => by simp at hf⟩

/-- C3: the claim states that a request lacking a header used as filter input
is evaluated with the missing value treated as an empty string and never
faults.  The code instead dereferences `null`: with a user-agent whitelist
configured (here one that accepts every string) and no user-agent header, the
gate evaluates `null.toLowerCase()`, the modelled `TypeError` propagates, and
the top-level handler turns it into a 500 — the request is neither evaluated
against the filters nor rejected normally. -/
theorem c3_missing_user_agent_faults :
    shouldReject
      { PROXY_HOSTNAME := some "example.com", PATHNAME_REGEX := none,
        UA_WHITELIST_REGEX := some (fun _ => true), UA_BLACKLIST_REGEX := none,
        IP_WHITELIST_REGEX := none, IP_BLACKLIST_REGEX := none,
        REGION_WHITELIST_REGEX := none, REGION_BLACKLIST_REGEX := none }
      { pathname := "/", userAgent := none, cfConnectingIp := some "1.2.3.4",
        cfIpcountry := some "US" } = Except.error "TypeError" ∧
    gateOutcome
      { PROXY_HOSTNAME := some "example.com", PATHNAME_REGEX := none,
        UA_WHITELIST_REGEX := some (fun _ => true), UA_BLACKLIST_REGEX := none,
        IP_WHITELIST_REGEX := none, IP_BLACKLIST_REGEX := none,
        REGION_WHITELIST_REGEX := none, REGION_BLACKLIST_REGEX := none }
      { pathname := "/", userAgent := none, cfConnectingIp := some "1.2.3.4",
        cfIpcountry := some "US" } = FetchOutcome.serverError :=
  ⟨rfl, rfl⟩

/-- C9: with the IP and region whitelists configured and both headers absent,
the gate does not fault: each regex is tested against the string `"null"` (the
JS coercion of the missing header), so the request passes exactly when both
matchers accept `"null"`.  The second and third conjuncts instantiate this: a
matcher accepting exactly the literal `"null"` lets the headerless request
pass, one accepting only a real address rejects it, and one accepting exactly
the empty string also rejects it, showing the behaviour is `"null"`-matching,
not empty-string matching. -/
theorem c9_missing_ip_region_null_coercion :
    (∀ f g : String → Bool,
      shouldReject
        { PROXY_HOSTNAME := some "example.com", PATHNAME_REGEX := none,
          UA_WHITELIST_REGEX := none, UA_BLACKLIST_REGEX := none,
          IP_WHITELIST_REGEX := some f, IP_BLACKLIST_REGEX := none,
          REGION_WHITELIST_REGEX := some g, REGION_BLACKLIST_REGEX := none }
        { pathname := "/", userAgent := none, cfConnectingIp := none,
          cfIpcountry := none } = Except.ok (!(f "null" && g "null"))) ∧
    shouldReject
      { PROXY_HOSTNAME := some "example.com", PATHNAME_REGEX := none,
        UA_WHITELIST_REGEX := none, UA_BLACKLIST_REGEX := none,
        IP_WHITELIST_REGEX := some (fun s => s == "null"), IP_BLACKLIST_REGEX := none,
        REGION_WHITELIST_REGEX := none, REGION_BLACKLIST_REGEX := none }
      { pathname := "/", userAgent := none, cfConnectingIp := none,
        cfIpcountry := none } = Except.ok false ∧
    shouldReject
      { PROXY_HOSTNAME := some "example.com", PATHNAME_REGEX := none,
        UA_WHITELIST_REGEX := none, UA_BLACKLIST_REGEX := none,
        IP_WHITELIST_REGEX := some (fun s => s == "1.2.3.4"), IP_BLACKLIST_REGEX := none,
        REGION_WHITELIST_REGEX := none, REGION_BLACKLIST_REGEX := none }
      { pathname := "/", userAgent := none, cfConnectingIp := none,
        cfIpcountry := none } = Except.ok true ∧
    shouldReject
      { PROXY_HOSTNAME := some "example.com", PATHNAME_REGEX := none,
        UA_WHITELIST_REGEX := none, UA_BLACKLIST_REGEX := none,
        IP_WHITELIST_REGEX := some (fun s => s == ""), IP_BLACKLIST_REGEX := none,
        REGION_WHITELIST_REGEX := none, REGION_BLACKLIST_REGEX := none }
      { pathname := "/", userAgent := none, cfConnectingIp := none,
        cfIpcountry := none } = Except.ok true := by
  refine ⟨?_, rfl, rfl, rfl⟩
  intro f g
  simp only [shouldReject, truthyStr, testWhitelist, testBlacklist, uaWhitelistClause,
    uaBlacklistClause, jsHeaderStr, orElseReject]
  cases hf : f "null" <;> cases hg : g "null" <;> simp [orElseReject, hf, hg]

/-- C5: host resolution returns the alias `api.github.com` for base hostname
`github.com` exactly when the raw path literally starts with one of the
enumerated API path prefixes (first conjunct), and in every other case returns
the base hostname unchanged (second conjunct).  Determinism is immediate: the
embedding mirrors a pure, effect-free source function of `(baseHostname,
pathname)` alone. -/
theorem c5_host_resolution (b p : String) :
    (b = "github.com" →
      (getGitHubProxyHost b p = "api.github.com" ↔
        ∃ pre ∈ apiPaths, jsStartsWith p pre = true)) ∧
    (¬(b = "github.com" ∧ ∃ pre ∈ apiPaths, jsStartsWith p pre = true) →
      getGitHubProxyHost b p = b) := by
  constructor
  · rintro rfl
    unfold getGitHubProxyHost isGitHubAPIPath
    cases h : apiPaths.any (fun path => jsStartsWith p path) with
    | false =>
      rw [List.any_eq_false] at h
      simp only [beq_self_eq_true, Bool.true_and, if_neg]
      constructor
      · intro hc; exact absurd hc (by decide)
      · rintro ⟨pre, hmem, hsw⟩; exact absurd hsw (by simpa using h pre hmem)
    | true =>
      simp only [beq_self_eq_true, Bool.true_and, if_pos, true_iff]
      rw [List.any_eq_true] at h
      obtain ⟨pre, hmem, hsw⟩ := h
      exact ⟨pre, hmem, hsw⟩
  · intro hn
    unfold getGitHubProxyHost
    rw [if_neg]
    simp only [Bool.and_eq_true, beq_iff_eq]
    rintro ⟨rfl, hapi⟩
    rw [isGitHubAPIPath, List.any_eq_true] at hapi
    obtain ⟨pre, hmem, hsw⟩ := hapi
    exact hn ⟨rfl, pre, hmem, hsw⟩

/-- Witness for C5: the path `/repos/octocat` resolves `github.com` to the API alias. -/
theorem c5_host_resolution_witness :
    getGitHubProxyHost "github.com" "/repos/octocat" = "api.github.com" :=
  ((c5_host_resolution "github.com" "/repos/octocat").1 rfl).mpr
    ⟨"/repos/", by decide, by decide⟩

/-- C4: body rewriting is gated on the content type.  Whenever the content-type
header value contains `text/` or `application/json` as a substring, the
returned body is the buffered, hostname-rewritten text; whenever it contains
neither, the body is passed through unmodified. -/
theorem c4_content_type_gating (ct raw host origin : String)
    (pr base : Option String) :
    ((ContainsSub ct "text/" ∨ ContainsSub ct "application/json") →
      pickBody (some ct) raw host pr origin base =
        replaceResponseText raw host pr origin base) ∧
    (¬ContainsSub ct "text/" → ¬ContainsSub ct "application/json" →
      pickBody (some ct) raw host pr origin base = raw) := by
  constructor
  · intro h
    have hc : (jsIncludes ct "text/" || jsIncludes ct "application/json") = true := by
      rw [Bool.or_eq_true]
      rcases h with h | h
      · exact Or.inl ((jsIncludes_iff _ _).mpr h)
      · exact Or.inr ((jsIncludes_iff _ _).mpr h)
    simp [pickBody, hc]
  · intro h1 h2
    have e1 : jsIncludes ct "text/" = false := by
      cases he : jsIncludes ct "text/" with
      | false => rfl
      | true => exact absurd ((jsIncludes_iff _ _).mp he) h1
    have e2 : jsIncludes ct "application/json" = false := by
      cases he : jsIncludes ct "application/json" with
      | false => rfl
      | true => exact absurd ((jsIncludes_iff _ _).mp he) h2
    simp [pickBody, e1, e2]

/-- Witness for C4: a JSON content type with a charset parameter is rewritten;
an image content type is passed through byte-identical. -/
theorem c4_content_type_gating_witness :
    pickBody (some "application/json; charset=utf-8") "see github.com" "github.com"
        none "o.example" none =
      replaceResponseText "see github.com" "github.com" none "o.example" none ∧
    pickBody (some "image/png") "rawbytes" "github.com" none "o.example" none =
      "rawbytes" :=
  ⟨(c4_content_type_gating _ _ _ _ _ _).1
      (Or.inr ⟨"", "; charset=utf-8", by decide⟩),
   (c4_content_type_gating _ _ _ _ _ _).2
      (fun hc => absurd ((jsIncludes_iff _ _).mpr hc) (by decide))
      (fun hc => absurd ((jsIncludes_iff _ _).mpr hc) (by decide))⟩

/-- C10: a response with no content-type header at all is never body-rewritten
(the missing header is coerced to `""`, which contains neither gate substring),
and a textual type such as `application/xml` that contains neither `text/` nor
`application/json` is likewise passed through unmodified, whatever the body and
hostname arguments are. -/
theorem c10_missing_content_type_passthrough :
    (∀ (raw host origin : String) (pr base : Option String),
      pickBody none raw host pr origin base = raw) ∧
    (∀ (raw host origin : String) (pr base : Option String),
      pickBody (some "application/xml") raw host pr origin base = raw) := by
  constructor
  · intro raw host origin pr base
    have h : (jsIncludes "" "text/" || jsIncludes "" "application/json") = false := by
      decide
    simp [pickBody, h]
  · intro raw host origin pr base
    have h : (jsIncludes "application/xml" "text/" ||
        jsIncludes "application/xml" "application/json") = false := by decide
    simp [pickBody, h]

/-- C7: when a pathname filter is configured, the body substitution rewrites a
hostname occurrence only when it is immediately followed by a path segment
matching the anchor-stripped filter.  First conjunct: if the hostname-followed-
by-filter pattern matches nowhere in the text, the text is returned unchanged —
in particular every hostname occurrence not followed by a matching segment is
left alone.  Second conjunct, on a mixed concrete body: the occurrence followed
by `/api/` is rewritten with the matching path segment preserved after the
substituted hostname, while the occurrence followed by `/home` is untouched. -/
theorem c7_path_constrained_substitution :
    (∀ host r origin text : String, r ≠ "" →
      scanHasMatch host.data (stripCaret r).data none text.data = false →
      replaceResponseText text host (some r) origin none = text) ∧
    replaceResponseText "a github.com/api/v1 b github.com/home" "github.com"
        (some "^/api/") "my.host" none = "a my.host/api/v1 b github.com/home" := by
  constructor
  · intro host r origin text hr hm
    have hr' : (r == "") = false := by
      cases hb : r == "" with
      | false => rfl
      | true => exact absurd (by simpa using hb) hr
    simp only [replaceResponseText, hr', Bool.false_eq_true, if_false,
      replaceHostWithPath, replaceScan_of_noMatch _ _ _ _ _ _ hm]
    exact string_ext _ _ rfl
  · decide

/-- Witness for C7: a body whose only hostname occurrence is followed by a
non-matching path segment is returned unchanged. -/
theorem c7_path_constrained_substitution_witness :
    replaceResponseText "github.com/home" "github.com" (some "^/api/") "my.host"
        none = "github.com/home" :=
  c7_path_constrained_substitution.1 "github.com" "^/api/" "my.host"
    "github.com/home" (by decide) (by decide)

/-- C8: when the configured base hostname is `github.com`, the second rewrite
pass replaces the sibling hostname with the plain unconstrained pattern.  First
conjunct: whenever the primary constrained pass matches nothing, the result is
exactly the unconstrained global substitution of the sibling host — the
configured pathname filter places no constraint on this secondary replacement.
Second conjunct: with the filter `^/api/` configured and the resolved host
`github.com` (a request whose path did not trigger the host split), an
`api.github.com` occurrence followed by `/home`, which does not match the
filter, is still rewritten to the origin hostname. -/
theorem c8_sibling_host_rewrite_unconstrained :
    (∀ host r origin text : String, r ≠ "" →
      scanHasMatch host.data (stripCaret r).data none text.data = false →
      replaceResponseText text host (some r) origin (some "github.com") =
        replaceHost (otherGitHubHost host) origin text) ∧
    replaceResponseText "see api.github.com/home now" "github.com" (some "^/api/")
        "my.host" (some "github.com") = "see my.host/home now" := by
  constructor
  · intro host r origin text hr hm
    have hr' : (r == "") = false := by
      cases hb : r == "" with
      | false => rfl
      | true => exact absurd (by simpa using hb) hr
    simp only [replaceResponseText, hr', Bool.false_eq_true, if_false,
      replaceHostWithPath, replaceScan_of_noMatch _ _ _ _ _ _ hm]
    have : String.mk text.data = text := string_ext _ _ rfl
    rw [this, if_pos (by decide)]
  · decide

/-- Witness for C8: with the filter configured and no primary match, the result
is the unconstrained sibling-host substitution. -/
theorem c8_sibling_host_rewrite_unconstrained_witness :
    replaceResponseText "ok api.github.com ok" "github.com" (some "^/api/")
        "o.example" (some "github.com") =
      replaceHost "api.github.com" "o.example" "ok api.github.com ok" :=
  c8_sibling_host_rewrite_unconstrained.1 "github.com" "^/api/" "o.example"
    "ok api.github.com ok" (by decide) (by decide)
